import Mathlib

/-!
Verification development for the SAI document-extraction backend
(`backend/app`): a shallow embedding, in Lean, of the services involved in
multi-pass field extraction, validation, spatial grounding, cross-field
consistency checking and confidence calibration, together with theorems
settling the specification claims about them.

Conventions of the embedding:
* Python `float` values are modelled as `ℚ` (the constants in the source are
  decimal literals, exactly representable).
* Python `dict[str, T]` objects are modelled as insertion-ordered association
  lists `List (String × T)` with the update semantics of `dict` (`alistFind`,
  `dictInsert`, `dictMerge` below).
* Fallible operations (`float(...)`, network calls) are modelled with
  `Option` / `Except`.
* `ExtractedField.value` (typed `Any` in `app/models/schemas.py`) is modelled
  as `String`: every code path relevant to the claims stores strings there.
-/

namespace SAI

/-- `ConfidenceLevel` from `app/models/schemas.py`. -/
inductive ConfidenceLevel where
  | high
  | medium
  | low
  deriving DecidableEq

/-- `DocumentType` from `app/models/schemas.py`. -/
inductive DocumentType where
  | invoice
  | receipt
  | business_card
  | form
  | contract
  | custom
  deriving DecidableEq

/-- `ProcessingStatus` from `app/models/schemas.py` (the states used by the
production service). -/
inductive ProcessingStatus where
  | pending
  | processing
  | completed
  | failed
  | validating
  deriving DecidableEq

/-- `BoundingBox` from `app/models/schemas.py`: pixel rectangle with integer
corner coordinates. -/
structure BoundingBox where
  x1 : ℤ
  y1 : ℤ
  x2 : ℤ
  y2 : ℤ
  deriving DecidableEq

/-- `TextBlock` from `app/models/schemas.py`. -/
structure TextBlock where
  text : String
  confidence : ℚ
  bounding_box : BoundingBox
  font_size : ℤ
  line_number : ℤ
  deriving DecidableEq

/-- `FieldLocation` from `app/models/schemas.py`: fractional page
coordinates. -/
structure FieldLocation where
  x : ℚ
  y : ℚ
  width : ℚ
  height : ℚ
  deriving DecidableEq

/-- `ExtractedField` from `app/models/schemas.py`. -/
structure ExtractedField where
  value : String
  confidence : ℚ
  confidence_level : ConfidenceLevel
  location : Option FieldLocation
  original_text : String
  validation_errors : List String
  deriving DecidableEq

/-- A Python `dict[str, ExtractedField]` in insertion order. -/
abbrev FieldDict := List (String × ExtractedField)

/-- Lookup in an insertion-ordered association list (first binding wins;
Python dicts have unique keys, so this is `d[k]` / `d.get(k)`). -/
def alistFind {α : Type} (d : List (String × α)) (k : String) : Option α :=
  match d with
  | [] => none
  | (k', v) :: t => if k' = k then some v else alistFind t k

/-- `d[k] = v` on a Python dict: replaces the value in place when the key is
present, appends the binding otherwise. -/
def dictInsert {α : Type} (d : List (String × α)) (k : String) (v : α) :
    List (String × α) :=
  match d with
  | [] => [(k, v)]
  | (k', v') :: t => if k' = k then (k, v) :: t else (k', v') :: dictInsert t k v

/-- `{**a, **b}` / `a.update(b)` on Python dicts: every binding of `b` is
written into `a` in order. -/
def dictMerge {α : Type} (a b : List (String × α)) : List (String × α) :=
  b.foldl (fun acc kv => dictInsert acc kv.1 kv.2) a

/-- Keys of an association list. -/
def alistKeys {α : Type} (d : List (String × α)) : List String :=
  d.map Prod.fst

/-- Python `pat in s` on strings restricted to lists of characters:
`pat` occurs as a contiguous infix. -/
def infixOf (pat : List Char) : List Char → Bool
  | [] => pat.isEmpty
  | c :: t => pat.isPrefixOf (c :: t) || infixOf pat t

/-- Python `pat in s` (substring test). -/
def strContains (s pat : String) : Bool :=
  infixOf pat.toList s.toList

/-- The whitespace class of Python `str.split` / `\s` (ASCII part). -/
def pyIsSpace (c : Char) : Bool :=
  c = ' ' || c = '\t' || c = '\n' || c = '\r' || c = '\x0b' || c = '\x0c'

/-- Python `str.strip()` (ASCII whitespace). -/
def pyStrip (s : String) : String :=
  ⟨(s.toList.dropWhile pyIsSpace).reverse.dropWhile pyIsSpace |>.reverse⟩

/-- Python `str.lower()` (ASCII, which covers every string this codebase
lower-cases); structural so that it evaluates in the kernel. -/
def lowerStr (s : String) : String := ⟨s.toList.map Char.toLower⟩

/-- `re.sub(r'\s+', ' ', ·)` with a flag recording whether the previous
character was whitespace: each maximal whitespace run becomes one space. -/
def collapseWsAux (prevSpace : Bool) : List Char → List Char
  | [] => []
  | c :: t =>
    if pyIsSpace c then
      if prevSpace then collapseWsAux true t else ' ' :: collapseWsAux true t
    else c :: collapseWsAux false t

/-- `re.sub(r'\s+', ' ', s)`: each maximal whitespace run becomes a single
space. -/
def collapseWs (l : List Char) : List Char := collapseWsAux false l

/-- Python `str.split()` with an accumulator for the word being read
(stored reversed). -/
def pySplitWsAux (cur : List Char) : List Char → List (List Char)
  | [] => if cur.isEmpty then [] else [cur.reverse]
  | c :: t =>
    if pyIsSpace c then
      if cur.isEmpty then pySplitWsAux [] t else cur.reverse :: pySplitWsAux [] t
    else pySplitWsAux (c :: cur) t

/-- Python `str.split()` (split on whitespace runs, dropping empty parts). -/
def pySplitWs (l : List Char) : List (List Char) := pySplitWsAux [] l

/-- Python `str.capitalize()`: first character upper-cased, remaining
characters lower-cased (ASCII). -/
def pyCapitalize : List Char → List Char
  | [] => []
  | c :: t => c.toUpper :: t.map Char.toLower

/-- `' '.join(word.capitalize() for word in s.split())`. -/
def capitalizeWords (s : String) : String :=
  ⟨List.intercalate [' '] ((pySplitWs s.toList).map pyCapitalize)⟩

/-- Numeric value of a decimal digit character. -/
def digitVal (c : Char) : ℕ := c.toNat - 48

/-- Value of a list of decimal digit characters. -/
def digitsToNat (l : List Char) : ℕ :=
  l.foldl (fun acc c => acc * 10 + digitVal c) 0

/-- `_get_confidence_level`, defined identically in
`gemini_service.py`, `production_document_service.py`,
`enhanced_gemini_service.py`, `universal_extraction_service.py` and
`enterprise_document_service.py`: thresholds 0.9 / 0.7. -/
def confidenceLevel (c : ℚ) : ConfidenceLevel :=
  if c ≥ 0.9 then .high
  else if c ≥ 0.7 then .medium
  else .low

/-- ASCII letter test (`[a-zA-Z]`). -/
def asciiAlpha (c : Char) : Bool :=
  ('a' ≤ c && c ≤ 'z') || ('A' ≤ c && c ≤ 'Z')

/-- Python `float(s)` on an unsigned body made of digits and dots:
`d+`, `d+.d*`, `.d+` succeed, everything else raises `ValueError`. -/
def parseUnsignedFloat (l : List Char) : Option ℚ :=
  let intPart := l.takeWhile Char.isDigit
  let rest := l.drop intPart.length
  match rest with
  | [] => if intPart.isEmpty then none else some (digitsToNat intPart)
  | '.' :: frac =>
    if frac.all Char.isDigit && !(intPart.isEmpty && frac.isEmpty) then
      some ((digitsToNat intPart : ℚ) + (digitsToNat frac : ℚ) / (10 : ℚ) ^ frac.length)
    else none
  | _ => none

/-- Python `float(s)` restricted to the alphabet `[0-9.-]` that the callers
in this codebase feed it (all other characters are stripped beforehand). -/
def parsePyFloat (s : String) : Option ℚ :=
  match s.toList with
  | '-' :: rest => (parseUnsignedFloat rest).map (fun q => -q)
  | l => parseUnsignedFloat l

/-- One JSON value inside the object an Oracle response carries: either a
non-object scalar (rendered with `str` by the parsers that accept it) or an
object with the optional keys `value` / `confidence` / `original_text` that
the parsers read. -/
inductive JsonFieldVal where
  | scalar (raw : String)
  | obj (value? : Option String) (confidence? : Option ℚ) (original_text? : Option String)
  deriving DecidableEq

/-- The text returned by the Extraction Oracle, abstracted to the way the
parsers consume it: either it contains no decodable JSON object
(`noJson`, covering both a match failure of `re.search(r'\{.*\}')` and a
`json.loads` error) or it decodes to an object. -/
inductive OracleText where
  | noJson (raw : String)
  | jsonObj (fields : List (String × JsonFieldVal))
  deriving DecidableEq

namespace GeminiService

/-- The two shapes of prompt that reach `_get_mock_simple_response`
(`gemini_service.py` lines 448-462): the type-detection prompt contains the
substring "document type"; every extraction prompt built in
`production_document_service.py` (general, focused, custom) contains
"extract" and not "document type", so the mock dispatch resolves on this
tag. -/
inductive PromptKind where
  | typeDetect
  | extraction
  deriving DecidableEq

/-- The mock JSON object of `_get_mock_simple_response` for extraction
prompts (`gemini_service.py` lines 453-460). -/
def mock_extraction_json : List (String × JsonFieldVal) :=
  [("vendor_name", .obj (some "ACME Corporation") (some 0.95) (some "ACME Corporation")),
   ("invoice_number", .obj (some "INV-2025-001") (some 0.92) (some "INV-2025-001")),
   ("total_amount", .obj (some "$1,234.56") (some 0.98) (some "$1,234.56")),
   ("invoice_date", .obj (some "2025-06-18") (some 0.90) (some "18/06/2025"))]

/-- `_get_mock_simple_response` (`gemini_service.py` lines 448-462). -/
def get_mock_simple_response : PromptKind → OracleText
  | .typeDetect => .noJson "INVOICE|0.95"
  | .extraction => .jsonObj mock_extraction_json

/-- `_get_gemini_response_simple` (`gemini_service.py` lines 431-446): a
successful API call returns the response text; any failure (and the
mock-mode path) is caught and replaced by `_get_mock_simple_response`. -/
def get_gemini_response_simple (pk : PromptKind) (call : Except String OracleText) :
    OracleText :=
  match call with
  | .ok t => t
  | .error _ => get_mock_simple_response pk

/-! `strptime`-based date validation used by `_validate_date_field`
(`gemini_service.py` lines 238-262): the value must fully match one of
`%Y-%m-%d`, `%m/%d/%Y`, `%d/%m/%Y`, `%B %d, %Y` and denote a calendar-valid
date.  The CPython `_strptime` directive regexes are transcribed:
`%Y` is exactly four digits, `%m` is `1[0-2]|0[1-9]|[1-9]`, `%d` is
`3[01]|[12]\d|0[1-9]|[1-9]`, `%B` is a case-insensitive full month name, and
a literal space in the format matches one or more whitespace characters.
Each parser returns the list of admissible (value, remaining input)
alternatives. -/

/-- `%m`: month number, one or two digits, 1-12. -/
def parseMonthNum (l : List Char) : List (ℕ × List Char) :=
  (match l with
   | '1' :: c :: t =>
     if c = '0' || c = '1' || c = '2' then [(10 + digitVal c, t)] else []
   | '0' :: c :: t =>
     if c.isDigit && c ≠ '0' then [(digitVal c, t)] else []
   | _ => []) ++
  (match l with
   | c :: t => if c.isDigit && c ≠ '0' then [(digitVal c, t)] else []
   | [] => [])

/-- `%d`: day number, one or two digits, 1-31. -/
def parseDayNum (l : List Char) : List (ℕ × List Char) :=
  (match l with
   | '3' :: c :: t => if c = '0' || c = '1' then [(30 + digitVal c, t)] else []
   | '1' :: c :: t => if c.isDigit then [(10 + digitVal c, t)] else []
   | '2' :: c :: t => if c.isDigit then [(20 + digitVal c, t)] else []
   | '0' :: c :: t => if c.isDigit && c ≠ '0' then [(digitVal c, t)] else []
   | _ => []) ++
  (match l with
   | c :: t => if c.isDigit && c ≠ '0' then [(digitVal c, t)] else []
   | [] => [])

/-- `%Y`: exactly four digits. -/
def parseYear4 (l : List Char) : List (ℕ × List Char) :=
  match l with
  | a :: b :: c :: d :: t =>
    if a.isDigit && b.isDigit && c.isDigit && d.isDigit then
      [(digitsToNat [a, b, c, d], t)]
    else []
  | _ => []

/-- A literal character of the format string. -/
def parseLit (ch : Char) (l : List Char) : List (List Char) :=
  match l with
  | c :: t => if c = ch then [t] else []
  | [] => []

/-- A (run of) whitespace in the format string matches `\s+`. -/
def parseWsPlus (l : List Char) : List (List Char) :=
  let r := l.dropWhile pyIsSpace
  if r.length < l.length then [r] else []

/-- English month names for `%B` (matched case-insensitively). -/
def monthNames : List (List Char × ℕ) :=
  [("january".toList, 1), ("february".toList, 2), ("march".toList, 3),
   ("april".toList, 4), ("may".toList, 5), ("june".toList, 6),
   ("july".toList, 7), ("august".toList, 8), ("september".toList, 9),
   ("october".toList, 10), ("november".toList, 11), ("december".toList, 12)]

/-- `%B`: a full month name, case-insensitive. -/
def parseMonthName (l : List Char) : List (ℕ × List Char) :=
  monthNames.filterMap fun nm =>
    if nm.1.isPrefixOf (l.map Char.toLower) then some (nm.2, l.drop nm.1.length)
    else none

/-- Gregorian leap year, as `datetime.date` uses it. -/
def isLeap (y : ℕ) : Bool := y % 4 = 0 && (y % 100 ≠ 0 || y % 400 = 0)

/-- Days in a month, as `datetime.date` validates them. -/
def daysInMonth (y m : ℕ) : ℕ :=
  if m = 2 then (if isLeap y then 29 else 28)
  else if m = 4 || m = 6 || m = 9 || m = 11 then 30
  else 31

/-- The `datetime.date(y, m, d)` constructor check performed by
`strptime` after the regex match. -/
def dateCtorOk (y m d : ℕ) : Bool :=
  1 ≤ y && y ≤ 9999 && 1 ≤ m && m ≤ 12 && 1 ≤ d && d ≤ daysInMonth y m

/-- `strptime(s, '%Y-%m-%d')` succeeds. -/
def matchFmtYmd (l : List Char) : Bool :=
  (parseYear4 l).any fun yr =>
    (parseLit '-' yr.2).any fun r2 =>
      (parseMonthNum r2).any fun mr =>
        (parseLit '-' mr.2).any fun r4 =>
          (parseDayNum r4).any fun dr =>
            dr.2.isEmpty && dateCtorOk yr.1 mr.1 dr.1

/-- `strptime(s, '%m/%d/%Y')` succeeds. -/
def matchFmtMdy (l : List Char) : Bool :=
  (parseMonthNum l).any fun mr =>
    (parseLit '/' mr.2).any fun r2 =>
      (parseDayNum r2).any fun dr =>
        (parseLit '/' dr.2).any fun r4 =>
          (parseYear4 r4).any fun yr =>
            yr.2.isEmpty && dateCtorOk yr.1 mr.1 dr.1

/-- `strptime(s, '%d/%m/%Y')` succeeds. -/
def matchFmtDmy (l : List Char) : Bool :=
  (parseDayNum l).any fun dr =>
    (parseLit '/' dr.2).any fun r2 =>
      (parseMonthNum r2).any fun mr =>
        (parseLit '/' mr.2).any fun r4 =>
          (parseYear4 r4).any fun yr =>
            yr.2.isEmpty && dateCtorOk yr.1 mr.1 dr.1

/-- `strptime(s, '%B %d, %Y')` succeeds. -/
def matchFmtBdy (l : List Char) : Bool :=
  (parseMonthName l).any fun mr =>
    (parseWsPlus mr.2).any fun r2 =>
      (parseDayNum r2).any fun dr =>
        (parseLit ',' dr.2).any fun r4 =>
          (parseWsPlus r4).any fun r5 =>
            (parseYear4 r5).any fun yr =>
              yr.2.isEmpty && dateCtorOk yr.1 mr.1 dr.1

/-- The `for fmt in date_formats` loop of `_validate_date_field`: some
format parses the whole value as a valid date. -/
def anyDateFormatOk (s : String) : Bool :=
  matchFmtYmd s.toList || matchFmtMdy s.toList || matchFmtDmy s.toList ||
    matchFmtBdy s.toList

/-- `_validate_date_field` (`gemini_service.py` lines 238-262). -/
def validate_date_field (f : ExtractedField) : ExtractedField :=
  if f.value = "" then f
  else if anyDateFormatOk f.value then
    { f with confidence := min (f.confidence + 0.05) 1 }
  else
    { f with
      validation_errors := f.validation_errors ++ ["Invalid date format"]
      confidence := max (f.confidence - 0.1) 0 }

/-- `re.search(r'[\d.]+', s)`: the leftmost maximal run of digits and
dots, if any. -/
def firstNumRun : List Char → Option (List Char)
  | [] => none
  | c :: t =>
    if c.isDigit || c = '.' then
      some ((c :: t).takeWhile (fun ch => ch.isDigit || ch = '.'))
    else firstNumRun t

/-- `_validate_amount_field` (`gemini_service.py` lines 264-287): strip
`,`, `$`, `€`, search for a numeric run, convert with `float`.  The Python
exception message carries the offending text; the theorems only inspect
whether errors were appended, so the message is abbreviated here. -/
def validate_amount_field (f : ExtractedField) : ExtractedField :=
  if f.value = "" then f
  else
    let amount_str := f.value.toList.filter (fun c => c ≠ ',' && c ≠ '$' && c ≠ '€')
    match firstNumRun amount_str with
    | some run =>
      match parsePyFloat ⟨run⟩ with
      | some q =>
        if q ≥ 0 then { f with confidence := min (f.confidence + 0.05) 1 }
        else { f with validation_errors :=
                 f.validation_errors ++ ["Negative amount detected"] }
      | none =>
        { f with
          validation_errors :=
            f.validation_errors ++ ["Amount validation error: could not convert string to float"]
          confidence := max (f.confidence - 0.1) 0 }
    | none =>
      { f with
        validation_errors := f.validation_errors ++ ["No numeric value found"]
        confidence := max (f.confidence - 0.1) 0 }

/-- `[a-zA-Z0-9._%+-]` (local part of the e-mail regex). -/
def emailLocalChar (c : Char) : Bool :=
  asciiAlpha c || c.isDigit || c = '.' || c = '_' || c = '%' || c = '+' || c = '-'

/-- `[a-zA-Z0-9.-]` (domain part of the e-mail regex). -/
def emailDomainChar (c : Char) : Bool :=
  asciiAlpha c || c.isDigit || c = '.' || c = '-'

/-- The domain side of `^local@domain\.tld$`: some dot splits it into a
nonempty `[a-zA-Z0-9.-]+` part and a trailing `[a-zA-Z]{2,}` part. -/
def emailDomainOk (rest : List Char) : Bool :=
  (List.range rest.length).any fun k =>
    rest[k]? = some '.' && 0 < k && (rest.take k).all emailDomainChar &&
      (2 ≤ (rest.drop (k + 1)).length && (rest.drop (k + 1)).all asciiAlpha)

/-- Full match of `^[a-zA-Z0-9._%+-]+@[a-zA-Z0-9.-]+\.[a-zA-Z]{2,}$`.
Only the first `@` can split the string (the character classes on either
side exclude `@`). -/
def emailMatch (l : List Char) : Bool :=
  match l.findIdx? (· = '@') with
  | none => false
  | some i =>
    let localPart := l.take i
    let rest := l.drop (i + 1)
    !localPart.isEmpty && localPart.all emailLocalChar && emailDomainOk rest

/-- `re.match(pattern, s)` for the anchored e-mail pattern: `$` also
matches just before one trailing newline. -/
def emailRegexAccept (s : String) : Bool :=
  emailMatch s.toList ||
    (match s.toList.getLast? with
     | some '\n' => emailMatch s.toList.dropLast
     | _ => false)

/-- `_validate_email_field` (`gemini_service.py` lines 289-301). -/
def validate_email_field (f : ExtractedField) : ExtractedField :=
  if f.value = "" then f
  else if emailRegexAccept f.value then
    { f with confidence := min (f.confidence + 0.05) 1 }
  else
    { f with
      validation_errors := f.validation_errors ++ ["Invalid email format"]
      confidence := max (f.confidence - 0.1) 0 }

/-- `_validate_phone_field` (`gemini_service.py` lines 303-316). -/
def validate_phone_field (f : ExtractedField) : ExtractedField :=
  if f.value = "" then f
  else if 10 ≤ (f.value.toList.filter Char.isDigit).length then
    { f with confidence := min (f.confidence + 0.05) 1 }
  else
    { f with
      validation_errors := f.validation_errors ++ ["Phone number too short"]
      confidence := max (f.confidence - 0.05) 0 }

/-- `validate_extraction` (`gemini_service.py` lines 216-236): dispatch on
substrings of the lower-cased field name, then recompute the confidence
level.  The Python code mutates the fields of the input dict in place and
returns the same dict; the result is the rebuilt dict. -/
def validate_extraction (d : FieldDict) (_document_type : DocumentType) : FieldDict :=
  d.map fun nf =>
    let nl := lowerStr nf.1
    let f1 :=
      if strContains nl "date" then validate_date_field nf.2
      else if ["amount", "total", "price"].any (fun kw => strContains nl kw) then
        validate_amount_field nf.2
      else if strContains nl "email" then validate_email_field nf.2
      else if strContains nl "phone" then validate_phone_field nf.2
      else nf.2
    (nf.1, { f1 with confidence_level := confidenceLevel f1.confidence })

/-- The literal data of `_get_mock_extraction`
(`gemini_service.py` lines 183-214). -/
def get_mock_extraction : DocumentType → List (String × String × ℚ)
  | .invoice =>
    [("vendor_name", "ACME Corporation", 0.95),
     ("invoice_number", "INV-2024-001", 0.90),
     ("invoice_date", "2024-01-15", 0.92),
     ("total_amount", "1,234.56", 0.95),
     ("currency", "USD", 0.88),
     ("vendor_address", "123 Business St, City, State 12345", 0.85),
     ("subtotal", "1,134.56", 0.90),
     ("tax_amount", "100.00", 0.88)]
  | .receipt =>
    [("merchant_name", "Coffee Shop", 0.92),
     ("transaction_date", "2024-01-15", 0.90),
     ("total_amount", "15.50", 0.95),
     ("payment_method", "Credit Card", 0.85)]
  | .business_card =>
    [("full_name", "John Smith", 0.95),
     ("company", "Tech Solutions Inc", 0.90),
     ("title", "Software Engineer", 0.88),
     ("email", "john.smith@techsolutions.com", 0.92),
     ("phone", "+1 (555) 123-4567", 0.90)]
  | _ => [("document_content", "Sample extracted content", 0.75)]

/-- The `ExtractedField` conversion applied to the mock data inside
`extract_fields` (`gemini_service.py` lines 156-168). -/
def mock_extracted_fields (dt : DocumentType) : FieldDict :=
  (get_mock_extraction dt).map fun nvc =>
    (nvc.1, ⟨nvc.2.1, nvc.2.2, confidenceLevel nvc.2.2, none, nvc.2.1, []⟩)

/-- `_convert_to_extracted_fields` (`gemini_service.py` lines 407-429). -/
def convert_to_extracted_fields (fs : List (String × JsonFieldVal)) : FieldDict :=
  fs.foldl (fun acc kv =>
    match kv.2 with
    | .scalar s => dictInsert acc kv.1 ⟨s, 0.7, confidenceLevel 0.7, none, s, []⟩
    | .obj v? c? _ =>
      let val := v?.getD ""
      let c := c?.getD 0.5
      dictInsert acc kv.1 ⟨val, c, confidenceLevel c, none, val, []⟩) []

/-- The ways the body of `extract_fields` can go
(`gemini_service.py` lines 132-172). -/
inductive ExtractFieldsOutcome where
  | apiParsed (fields : List (String × JsonFieldVal))
  | apiNoJson
  | mockMode
  | raised (msg : String)
  deriving DecidableEq

/-- `extract_fields` (`gemini_service.py` lines 132-172): a parsed
non-empty JSON object is converted; an empty or unparseable response and
the mock mode fall back to the mock data; an escaping exception is caught
and yields the empty dict. -/
def extract_fields (o : ExtractFieldsOutcome) (dt : DocumentType) : FieldDict :=
  match o with
  | .apiParsed fs => if fs.isEmpty then mock_extracted_fields dt
                     else convert_to_extracted_fields fs
  | .apiNoJson => mock_extracted_fields dt
  | .mockMode => mock_extracted_fields dt
  | .raised _ => []

end GeminiService

/-- Existence semantics of `re.search`: the matcher succeeds at some start
position. -/
def anyStart (p : List Char → Bool) : List Char → Bool
  | [] => p []
  | c :: t => p (c :: t) || anyStart p t

/-- `\d{a}` for one of the admissible counts, then continue. -/
def digitsThen (cnts : List ℕ) (k : List Char → Bool) (l : List Char) : Bool :=
  cnts.any fun a =>
    decide ((l.take a).length = a) && (l.take a).all Char.isDigit && k (l.drop a)

/-- A single character from a class, then continue. -/
def sepThen (seps : List Char) (k : List Char → Bool) (l : List Char) : Bool :=
  match l with
  | c :: t => seps.contains c && k t
  | [] => false

/-- `[A-Za-z]+` followed by a non-letter continuation: only the maximal
letter run can be followed by the non-letter pattern, so the run is
consumed whole. -/
def alphaRunThen (k : List Char → Bool) (l : List Char) : Bool :=
  let r := l.takeWhile asciiAlpha
  !r.isEmpty && k (l.drop r.length)

namespace ProductionService

open GeminiService

/-- Field-name dispatch of `production_document_service.py`: currency
fields (`_clean_field_value` / `_validate_field_content`). -/
def currencyCat (n : String) : Bool :=
  ["amount", "total", "price", "cost", "subtotal"].any fun kw => strContains (lowerStr n) kw

/-- Field-name dispatch: date fields. -/
def dateCat (n : String) : Bool :=
  ["date", "due"].any fun kw => strContains (lowerStr n) kw

/-- Field-name dispatch: name fields. -/
def nameCat (n : String) : Bool :=
  ["name", "vendor", "customer", "merchant"].any fun kw => strContains (lowerStr n) kw

/-- Field-name dispatch: e-mail fields. -/
def emailCat (n : String) : Bool := strContains (lowerStr n) "email"

/-- `re.search(r'[\d,]+\.?\d*', s)` succeeds exactly when `s` contains a
digit or a comma (the first class alone can match). -/
def amountSearch (s : String) : Bool :=
  s.toList.any fun c => c.isDigit || c = ','

/-- `re.search` of `\d{1,2}` sep `\d{1,2}` sep `\d{2,4}` where sep is the
class of dash and slash. -/
def searchDateNum1 (l : List Char) : Bool :=
  anyStart (digitsThen [1, 2] (sepThen ['-', '/'] (digitsThen [1, 2]
    (sepThen ['-', '/'] (digitsThen [2, 3, 4] fun _ => true))))) l

/-- `re.search` of `\d{4}` sep `\d{1,2}` sep `\d{1,2}` where sep is the
class of dash and slash. -/
def searchDateNum2 (l : List Char) : Bool :=
  anyStart (digitsThen [4] (sepThen ['-', '/'] (digitsThen [1, 2]
    (sepThen ['-', '/'] (digitsThen [1, 2] fun _ => true))))) l

/-- `re.search(r'[A-Za-z]+ \d{1,2}, \d{4}', ·)`. -/
def searchDateName1 (l : List Char) : Bool :=
  anyStart (alphaRunThen (sepThen [' '] (digitsThen [1, 2]
    (sepThen [','] (sepThen [' '] (digitsThen [4] fun _ => true)))))) l

/-- `re.search(r'\d{1,2} [A-Za-z]+ \d{4}', ·)`. -/
def searchDateName2 (l : List Char) : Bool :=
  anyStart (digitsThen [1, 2] (sepThen [' '] (alphaRunThen
    (sepThen [' '] (digitsThen [4] fun _ => true))))) l

/-- `_is_valid_date_format` (`production_document_service.py` lines
550-558). -/
def is_valid_date_format (s : String) : Bool :=
  searchDateNum1 s.toList || searchDateNum2 s.toList ||
    searchDateName1 s.toList || searchDateName2 s.toList

/-- `_validate_field_content` (`production_document_service.py` lines
525-548). -/
def validate_field_content (field_name value : String) (_dt : DocumentType) :
    List String :=
  if value = "" then []
  else
    let v := pyStrip value
    if currencyCat field_name then
      if amountSearch v then [] else ["Invalid amount format"]
    else if dateCat field_name then
      if is_valid_date_format v then [] else ["Invalid date format"]
    else if emailCat field_name then
      if emailRegexAccept v then [] else ["Invalid email format"]
    else []

/-- `_clean_field_value` (`production_document_service.py` lines 501-523). -/
def clean_field_value (field_name value : String) : String :=
  if value = "" then ""
  else
    let cleaned := pyStrip value
    if currencyCat field_name then ⟨collapseWs cleaned.toList⟩
    else if dateCat field_name then
      ⟨cleaned.toList.map fun c => if c = '/' || c = '.' then '-' else c⟩
    else if nameCat field_name then capitalizeWords cleaned
    else cleaned

/-- `re.sub(r'(\d)X(\d)', r'\1R\2', ·)` for a one-character class `X`
(drawn from `mids`) and replacement text `digit ++ ins ++ digit`; scanning
is left-to-right and non-overlapping, the second digit is consumed. -/
def subOcr (mids : List Char) (ins : List Char) : List Char → List Char
  | a :: b :: c :: t =>
    if a.isDigit && mids.contains b && c.isDigit then
      a :: ins ++ c :: subOcr mids ins t
    else a :: subOcr mids ins (b :: c :: t)
  | l => l

/-- `_auto_correct_field` (`production_document_service.py` lines 560-578):
`(\d)o(\d) → \1.0\2` then `(\d)l(\d) → \1.1\2` for amounts,
`(\d)[.o](\d) → \1/\2` for dates. -/
def auto_correct_field (_field_name value : String) (validation_errors : List String) :
    String :=
  if validation_errors.isEmpty || value = "" then value
  else
    let corrected := pyStrip value
    if validation_errors.contains "Invalid amount format" then
      ⟨subOcr ['l'] ['.', '1'] (subOcr ['o'] ['.', '0'] corrected.toList)⟩
    else if validation_errors.contains "Invalid date format" then
      ⟨subOcr ['.', 'o'] ['/'] corrected.toList⟩
    else corrected

/-- `_refine_extracted_fields` (`production_document_service.py` lines
436-465). -/
def refine_extracted_fields (fields : FieldDict) (dt : DocumentType) : FieldDict :=
  fields.map fun nf =>
    let cleaned := clean_field_value nf.1 nf.2.value
    let errors := validate_field_content nf.1 cleaned dt
    let conf := if errors.isEmpty then nf.2.confidence else nf.2.confidence * 0.7
    (nf.1, ⟨cleaned, conf, confidenceLevel conf, nf.2.location, nf.2.original_text, errors⟩)

/-- `_validate_and_correct_fields` (`production_document_service.py` lines
467-499). -/
def validate_and_correct_fields (d : FieldDict) (dt : DocumentType) : FieldDict :=
  d.map fun nf =>
    let errors := validate_field_content nf.1 nf.2.value dt
    let corrected := auto_correct_field nf.1 nf.2.value errors
    let c1 := if errors.isEmpty then nf.2.confidence else nf.2.confidence * 0.8
    let c2 := if corrected = nf.2.value then c1 else c1 * 0.9
    (nf.1, ⟨corrected, c2, confidenceLevel c2, nf.2.location, nf.2.original_text, errors⟩)

/-- Python float `%` (floored modulo, result carries the divisor's sign;
here only used with divisor 3). -/
def pyFloatMod (a b : ℚ) : ℚ := a - b * ⌊a / b⌋

/-- `_add_spatial_coordinates` (`production_document_service.py` lines
580-621): fabricates a location for every field from its index and the
(salted, hence parameterised) Python string hash. -/
def add_spatial_coordinates (hash : String → ℤ) (d : FieldDict) : FieldDict :=
  let n := d.length
  d.enum.map fun inf =>
    let i := inf.1
    let x : ℚ := 0.1 + 0.8 * ((i % 2 : ℕ) : ℚ)
    let y : ℚ := 0.1 + 0.8 * (i : ℚ) / (n : ℚ)
    let w : ℚ := 0.3 + pyFloatMod (0.2 * (hash inf.2.1 : ℚ)) 3 / 3
    (inf.2.1, { inf.2.2 with location := some ⟨x, y, w, 0.05⟩ })

/-- `_calibrate_confidence` (`production_document_service.py` lines
623-668). -/
def calibrate_confidence (d : FieldDict) (_dt : DocumentType) (accuracy_mode : String) :
    FieldDict :=
  d.map fun nf =>
    let base := nf.2.confidence
    let c1 :=
      if accuracy_mode = "high" then base * 0.95
      else if accuracy_mode = "fast" then base * 0.9
      else base
    let c2 :=
      if (nf.1 = "total_amount" ∨ nf.1 = "invoice_number" ∨ nf.1 = "vendor_name") ∧
          base > 0.8 then
        min 0.98 (c1 * 1.05)
      else c1
    let c3 := if nf.2.validation_errors.isEmpty then c2 else c2 * 0.7
    let c4 := max 0 (min 1 c3)
    (nf.1, { nf.2 with
      confidence := c4
      confidence_level := confidenceLevel c4 })

/-- `critical_field_patterns` of `_calculate_weighted_confidence`
(`production_document_service.py` line 676). -/
def critical_field_patterns : List String :=
  ["amount", "total", "number", "date", "name"]

/-- A field name is critical when it contains one of the patterns. -/
def isCriticalName (n : String) : Bool :=
  critical_field_patterns.any fun p => strContains (lowerStr n) p

/-- The weight given to a field by `_calculate_weighted_confidence`. -/
def fieldWeight (n : String) : ℚ := if isCriticalName n then 2 else 1

/-- `_calculate_weighted_confidence` (`production_document_service.py`
lines 670-689). -/
def calculate_weighted_confidence (d : FieldDict) : ℚ :=
  if d.isEmpty then 0
  else
    let tw := d.foldl (fun acc nf => acc + fieldWeight nf.1) 0
    let ws := d.foldl (fun acc nf => acc + nf.2.confidence * fieldWeight nf.1) 0
    if 0 < tw then ws / tw else 0

/-- `_parse_enhanced_response` (`production_document_service.py` lines
370-399): no JSON (or a decode error) yields the empty dict; entries of a
decoded object are kept when they are objects with a `value` key,
confidence defaulting to 0.5 and `original_text` to the value. -/
def parse_enhanced_response (r : OracleText) : FieldDict :=
  match r with
  | .noJson _ => []
  | .jsonObj fs =>
    fs.foldl (fun acc kv =>
      match kv.2 with
      | .scalar _ => acc
      | .obj none _ _ => acc
      | .obj (some val) c? o? =>
        let c := c?.getD 0.5
        dictInsert acc kv.1 ⟨val, c, confidenceLevel c, none, o?.getD val, []⟩) []

/-- Critical fields by document type (`_extract_missing_fields`,
`production_document_service.py` lines 409-414). -/
def critical_fields : DocumentType → List String
  | .invoice => ["vendor_name", "invoice_number", "total_amount", "invoice_date"]
  | .receipt => ["merchant_name", "total_amount", "transaction_date"]
  | .business_card => ["full_name", "company"]
  | _ => []

/-- The Oracle interactions a production run can make: the outcome of the
API call behind each prompt of the multi-pass chain, and the outcome of
`GeminiService.extract_fields` used by the single-pass chain. -/
structure OracleEnv where
  general : Except String OracleText
  focused : Except String OracleText
  custom : Except String OracleText
  singleGeneral : GeminiService.ExtractFieldsOutcome

/-- The Oracle-facing passes of the orchestration, as labels. -/
inductive PassKind where
  | general
  | focused
  | refinement
  | custom
  deriving DecidableEq

/-- `_extract_with_enhanced_prompt` (`production_document_service.py`
lines 285-368): the GENERAL pass of the multi-pass chain. -/
def extract_with_enhanced_prompt (env : OracleEnv) (_dt : DocumentType) : FieldDict :=
  parse_enhanced_response (get_gemini_response_simple .extraction env.general)

/-- `_extract_missing_fields` (`production_document_service.py` lines
401-434): gap analysis plus the FOCUSED pass; the Boolean records whether
the Oracle was invoked. -/
def extract_missing_fields (env : OracleEnv) (dt : DocumentType)
    (existing : FieldDict) : FieldDict × Bool :=
  let missing := (critical_fields dt).filter fun fdn =>
    match alistFind existing fdn with
    | none => true
    | some f => f.value = ""
  if missing.isEmpty then ([], false)
  else (parse_enhanced_response (get_gemini_response_simple .extraction env.focused), true)

/-- `_extract_custom_fields` (`production_document_service.py` lines
737-751). -/
def extract_custom_fields (env : OracleEnv) (customFields : List String) : FieldDict :=
  if customFields.isEmpty then []
  else parse_enhanced_response (get_gemini_response_simple .extraction env.custom)

/-- `_multi_pass_extraction` (`production_document_service.py` lines
241-268), instrumented with the list of passes performed.  Line 259 merges
the FOCUSED candidates into the GENERAL ones with
`{**general_fields, **focused_fields}`. -/
def multi_pass_extraction (env : OracleEnv) (dt : DocumentType)
    (customFields : List String) : FieldDict × List PassKind :=
  let general := extract_with_enhanced_prompt env dt
  let fm := extract_missing_fields env dt general
  let combined := dictMerge general fm.1
  let refined := refine_extracted_fields combined dt
  let result :=
    if customFields.isEmpty then refined
    else dictMerge refined (extract_custom_fields env customFields)
  (result,
   [PassKind.general] ++ (if fm.2 then [PassKind.focused] else []) ++
     [PassKind.refinement] ++ (if customFields.isEmpty then [] else [PassKind.custom]))

/-- `_single_pass_extraction` (`production_document_service.py` lines
270-283), instrumented with the list of passes performed. -/
def single_pass_extraction (env : OracleEnv) (dt : DocumentType)
    (customFields : List String) : FieldDict × List PassKind :=
  let fields := GeminiService.extract_fields env.singleGeneral dt
  let result :=
    if customFields.isEmpty then fields
    else dictMerge fields (extract_custom_fields env customFields)
  (result, [PassKind.general] ++ (if customFields.isEmpty then [] else [PassKind.custom]))

/-- Step 3 of `process_document_production`
(`production_document_service.py` lines 75-79): the multi-pass chain runs
only for `accuracy_mode == "high"` with the `multi_pass_extraction` feature
flag (default `True`). -/
def extraction_stage (mode : String) (multiFlag : Bool) (env : OracleEnv)
    (dt : DocumentType) (customFields : List String) : FieldDict × List PassKind :=
  if mode = "high" ∧ multiFlag then multi_pass_extraction env dt customFields
  else single_pass_extraction env dt customFields

/-- The observable outcome of one production run. -/
structure ProdResult where
  status : ProcessingStatus
  extracted_data : FieldDict
  overall_confidence : ℚ
  deriving DecidableEq

/-- `process_document_production` (`production_document_service.py` lines
47-145).  `imageOk` records whether the image decodes wherever a step opens
it: all Oracle interactions catch their own failures, so the only exception
that can reach the top-level handler (lines 121-145, producing the FAILED
result) comes from image handling; with a decodable image the pipeline of
steps 3-6 always completes. -/
def process_document_production (imageOk : Bool) (hash : String → ℤ)
    (mode : String) (multiFlag : Bool) (dt : DocumentType)
    (customFields : List String) (env : OracleEnv) : ProdResult :=
  if imageOk then
    let extracted := (extraction_stage mode multiFlag env dt customFields).1
    let validated := validate_and_correct_fields extracted dt
    let spatial := add_spatial_coordinates hash validated
    let calibrated := calibrate_confidence spatial dt mode
    ⟨.completed, calibrated, calculate_weighted_confidence calibrated⟩
  else ⟨.failed, [], 0⟩

end ProductionService

namespace EnhancedService

/-- `_extract_numeric_value` (`enhanced_gemini_service.py` lines 472-482):
strip every character outside digits, dot and minus, then `float`; a falsy
value or a conversion error yields `None`. -/
def extract_numeric_value (f : Option ExtractedField) : Option ℚ :=
  match f with
  | none => none
  | some fl =>
    if fl.value = "" then none
    else parsePyFloat ⟨fl.value.toList.filter fun c => c.isDigit || c = '.' || c = '-'⟩

/-- The f-string appended by `_validate_invoice_math` on a mismatch.  The
Python message renders the two floats with `str`; the rendering differs
(`ℚ` notation here) but no theorem inspects the text. -/
def invoice_math_error_msg (total_val calculated : ℚ) : String :=
  "Total (" ++ toString total_val ++ ") does not match subtotal + tax (" ++
    toString calculated ++ ")"

/-- `_validate_invoice_math` (`enhanced_gemini_service.py` lines 444-465):
when `subtotal`, `tax_amount` and `total_amount` all parse, a deviation of
more than 0.01 appends a validation error to `total_amount` and multiplies
its confidence by 0.8; otherwise the dict is returned unchanged. -/
def validate_invoice_math (fields : FieldDict) : FieldDict :=
  let subtotal := extract_numeric_value (alistFind fields "subtotal")
  let tax_amount := extract_numeric_value (alistFind fields "tax_amount")
  let total := extract_numeric_value (alistFind fields "total_amount")
  match subtotal, tax_amount, total with
  | some sv, some tv, some totv =>
    if |sv + tv - totv| > 0.01 then
      match alistFind fields "total_amount" with
      | some f =>
        dictInsert fields "total_amount"
          { f with
            validation_errors :=
              f.validation_errors ++ [invoice_math_error_msg totv (sv + tv)]
            confidence := f.confidence * 0.8 }
      | none => fields
    else fields
  | _, _, _ => fields

end EnhancedService

namespace EnterpriseService

/-- The parameters (after `self`) accepted by
`EnhancedGeminiService.process_document_enhanced`
(`enhanced_gemini_service.py` lines 120-126): it has no `accuracy_mode`
parameter and no keyword catch-all. -/
def process_document_enhanced_params : List String :=
  ["image_data", "document_type", "ocr_results"]

/-- The shape of a Python call: how many arguments are passed positionally
and which keyword arguments accompany them. -/
structure PyCallSpec where
  positionalCount : ℕ
  keywordArgs : List String
  deriving DecidableEq

/-- CPython argument binding for a plain signature: every positional
argument must bind a parameter and every keyword argument must name a
parameter not already bound positionally, otherwise the call raises
`TypeError` before the body runs. -/
def call_binds (params : List String) (c : PyCallSpec) : Bool :=
  decide (c.positionalCount ≤ params.length) &&
    c.keywordArgs.all fun k => (params.drop c.positionalCount).contains k

/-- The call made by `_process_with_enhanced_pipeline`
(`enterprise_document_service.py` lines 249-251): three positional
arguments plus the keyword argument `accuracy_mode`. -/
def enhanced_call : PyCallSpec := ⟨3, ["accuracy_mode"]⟩

/-- Invoking `process_document_enhanced` with a given call shape: binding
failure raises (`Except.error`) without running the body, success would
return the enhanced pipeline's field set. -/
def call_process_document_enhanced (c : PyCallSpec) (enhancedResult : FieldDict) :
    Except String FieldDict :=
  if call_binds process_document_enhanced_params c then .ok enhancedResult
  else .error "got an unexpected keyword argument"

/-- `_process_with_standard_pipeline` (`enterprise_document_service.py`
lines 264-270): one `GeminiService.extract_fields` call. -/
def process_with_standard_pipeline (o : GeminiService.ExtractFieldsOutcome)
    (dt : DocumentType) : FieldDict :=
  GeminiService.extract_fields o dt

/-- `_process_with_enhanced_pipeline` (`enterprise_document_service.py`
lines 233-262): when the enhanced Gemini service is available the enhanced
call is attempted and any exception falls back to the standard pipeline;
without it the standard pipeline runs directly. -/
def process_with_enhanced_pipeline (enhancedAvailable : Bool)
    (enhancedResult : FieldDict) (o : GeminiService.ExtractFieldsOutcome)
    (dt : DocumentType) : FieldDict :=
  if enhancedAvailable then
    match call_process_document_enhanced enhanced_call enhancedResult with
    | .ok r => r
    | .error _ => process_with_standard_pipeline o dt
  else process_with_standard_pipeline o dt

end EnterpriseService

namespace Difflib

/-!
A transcription of `difflib.SequenceMatcher(None, a, b).ratio()` from the
CPython standard library, as used by `_find_fuzzy_match` and
`_is_value_match` in `universal_extraction_service.py`: no explicit junk,
automatic junk (`autojunk`) for second sequences of length at least 200,
`find_longest_match` as the dynamic program plus its four extension loops,
`get_matching_blocks` as the recursive decomposition, and
`ratio = 2*M/(len(a)+len(b))` (1 when both are empty).
-/

/-- The ascending occurrence indices of `c` in `b` (the `b2j` table before
junk removal). -/
def occIdx (b : List Char) (c : Char) : List ℕ :=
  (List.range b.length).filter fun j => decide (b[j]? = some c)

/-- `autojunk`: for `len(b) >= 200`, characters occurring more than
`len(b) // 100 + 1` times are popular and dropped from `b2j`. -/
def isPopular (b : List Char) (c : Char) : Bool :=
  decide (200 ≤ b.length) && decide (b.length / 100 + 1 < (occIdx b c).length)

/-- The `b2j` table after autojunk removal. -/
def b2j (b : List Char) (c : Char) : List ℕ :=
  if isPopular b c then [] else occIdx b c

/-- The running best match of `find_longest_match`. -/
structure FlmState where
  besti : ℕ
  bestj : ℕ
  bestsize : ℕ
  deriving DecidableEq

/-- One `j` step of the inner loop of `find_longest_match`: `j2len` is the
previous row, the accumulator carries the row being built and the best
match so far. -/
def flmInnerStep (j2len : ℕ → ℕ) (i blo bhi : ℕ) (acc : (ℕ → ℕ) × FlmState)
    (j : ℕ) : (ℕ → ℕ) × FlmState :=
  if j < blo ∨ bhi ≤ j then acc
  else
    let k := (if j = 0 then 0 else j2len (j - 1)) + 1
    let row := fun j' => if j' = j then k else acc.1 j'
    let st := if k > acc.2.bestsize then ⟨i + 1 - k, j + 1 - k, k⟩ else acc.2
    (row, st)

/-- One `i` row of `find_longest_match`. -/
def flmRow (j2len : ℕ → ℕ) (i blo bhi : ℕ) (js : List ℕ) (st : FlmState) :
    (ℕ → ℕ) × FlmState :=
  js.foldl (flmInnerStep j2len i blo bhi) ((fun _ => 0), st)

/-- The dynamic program of `find_longest_match` over
`a[alo:ahi]` × `b[blo:bhi]`. -/
def flmScan (a : List Char) (bj : Char → List ℕ) (alo ahi blo bhi : ℕ) : FlmState :=
  ((List.range' alo (ahi - alo)).foldl
    (fun acc i =>
      let js := match a[i]? with
        | some c => bj c
        | none => []
      flmRow acc.1 i blo bhi js acc.2)
    ((fun _ => 0), ⟨alo, blo, 0⟩)).2

/-- Leftward extension loop of `find_longest_match`; `junkSide` selects
the junk (popular) or non-junk variant. -/
def extendLeft (a b : List Char) (junk : Char → Bool) (junkSide : Bool)
    (alo blo : ℕ) : ℕ → FlmState → FlmState
  | 0, st => st
  | fuel + 1, st =>
    if alo < st.besti ∧ blo < st.bestj then
      match a[st.besti - 1]?, b[st.bestj - 1]? with
      | some ca, some cb =>
        if junk cb = junkSide ∧ ca = cb then
          extendLeft a b junk junkSide alo blo fuel
            ⟨st.besti - 1, st.bestj - 1, st.bestsize + 1⟩
        else st
      | _, _ => st
    else st

/-- Rightward extension loop of `find_longest_match`. -/
def extendRight (a b : List Char) (junk : Char → Bool) (junkSide : Bool)
    (ahi bhi : ℕ) : ℕ → FlmState → FlmState
  | 0, st => st
  | fuel + 1, st =>
    if st.besti + st.bestsize < ahi ∧ st.bestj + st.bestsize < bhi then
      match a[st.besti + st.bestsize]?, b[st.bestj + st.bestsize]? with
      | some ca, some cb =>
        if junk cb = junkSide ∧ ca = cb then
          extendRight a b junk junkSide ahi bhi fuel
            ⟨st.besti, st.bestj, st.bestsize + 1⟩
        else st
      | _, _ => st
    else st

/-- `find_longest_match(alo, ahi, blo, bhi)`: the dynamic program followed
by the non-junk and junk extension loops. -/
def find_longest_match (a b : List Char) (bj : Char → List ℕ)
    (junk : Char → Bool) (alo ahi blo bhi : ℕ) : FlmState :=
  let st0 := flmScan a bj alo ahi blo bhi
  let st1 := extendLeft a b junk false alo blo st0.besti st0
  let st2 := extendRight a b junk false ahi bhi ahi st1
  let st3 := extendLeft a b junk true alo blo st2.besti st2
  extendRight a b junk true ahi bhi ahi st3

/-- The total size of all matching blocks (the recursive decomposition of
`get_matching_blocks`); the fuel strictly exceeds the recursion depth for
every reachable call. -/
def matchingTotal (a b : List Char) (bj : Char → List ℕ) (junk : Char → Bool) :
    ℕ → ℕ → ℕ → ℕ → ℕ → ℕ
  | 0, _, _, _, _ => 0
  | fuel + 1, alo, ahi, blo, bhi =>
    let st := find_longest_match a b bj junk alo ahi blo bhi
    if st.bestsize = 0 then 0
    else
      matchingTotal a b bj junk fuel alo st.besti blo st.bestj + st.bestsize +
        matchingTotal a b bj junk fuel (st.besti + st.bestsize) ahi
          (st.bestj + st.bestsize) bhi

/-- `SequenceMatcher(None, a, b).ratio()`. -/
def sequenceMatcherRatio (aStr bStr : String) : ℚ :=
  let a := aStr.toList
  let b := bStr.toList
  let m := matchingTotal a b (b2j b) (isPopular b)
    (a.length + b.length + 1) 0 a.length 0 b.length
  if a.length + b.length = 0 then 1
  else 2 * (m : ℚ) / ((a.length + b.length : ℕ) : ℚ)

end Difflib

namespace UniversalService

open Difflib

/-- The OCR data read by `universal_extraction_service.py`: the callers
pass the dict produced by the OCR collaborator; `text_blocks` defaults to
`[]` and `image_dimensions` to `(1, 1)` when absent, which is subsumed by
choosing those field values. -/
structure OcrResults where
  text_blocks : List TextBlock
  image_dimensions : ℚ × ℚ
  full_text : String
  confidence : ℚ

/-- The normalised `FieldLocation` built from a pixel bounding box at
every strategy hit (division by the image dimensions). -/
def mkLoc (bbox : BoundingBox) (dims : ℚ × ℚ) : FieldLocation :=
  ⟨(bbox.x1 : ℚ) / dims.1, (bbox.y1 : ℚ) / dims.2,
   ((bbox.x2 : ℚ) - (bbox.x1 : ℚ)) / dims.1,
   ((bbox.y2 : ℚ) - (bbox.y1 : ℚ)) / dims.2⟩

/-- `_find_exact_match` (`universal_extraction_service.py` lines 424-440). -/
def find_exact_match (value : String) (blocks : List TextBlock) (dims : ℚ × ℚ) :
    Option FieldLocation :=
  let vl := lowerStr value
  blocks.findSome? fun block =>
    if lowerStr (pyStrip block.text) = vl then some (mkLoc block.bounding_box dims)
    else none

/-- `_find_fuzzy_match` (`universal_extraction_service.py` lines 442-469):
best `SequenceMatcher` ratio strictly above 0.8, earliest block on ties. -/
def find_fuzzy_match (value : String) (blocks : List TextBlock) (dims : ℚ × ℚ) :
    Option FieldLocation :=
  let vl := lowerStr value
  let best := blocks.foldl
    (fun (acc : Option TextBlock × ℚ) block =>
      let ratio := sequenceMatcherRatio vl (lowerStr (pyStrip block.text))
      if ratio > 0.8 ∧ ratio > acc.2 then (some block, ratio) else acc)
    (none, 0)
  best.1.map fun b => mkLoc b.bounding_box dims

/-- `_find_partial_match` (`universal_extraction_service.py` lines
471-507): the long-value word-co-occurrence loop, then the substring
loop. -/
def find_partial_match (value : String) (blocks : List TextBlock) (dims : ℚ × ℚ) :
    Option FieldLocation :=
  let vl := lowerStr value
  let long :=
    if value.length > 20 then
      let words := (pySplitWs vl.toList).filter fun w => w.length > 3
      blocks.findSome? fun block =>
        let btl := lowerStr (pyStrip block.text)
        let word_matches := (words.filter fun w => infixOf w btl.toList).length
        if word_matches ≥ min 2 (words.length / 2) then
          some (mkLoc block.bounding_box dims)
        else none
    else none
  match long with
  | some loc => some loc
  | none =>
    blocks.findSome? fun block =>
      let btl := lowerStr (pyStrip block.text)
      if (value.length > 5 ∧ infixOf vl.toList btl.toList) ∨
          (btl.length > 5 ∧ infixOf btl.toList vl.toList) then
        some (mkLoc block.bounding_box dims)
      else none

/-- The `amount` shape regex `[\d,]+\.?\d*` searched: a digit or comma
occurs. -/
def patAmount (s : List Char) : Bool := s.any fun c => c.isDigit || c = ','

/-- The `phone` shape regex (a character of digits, whitespace, dash,
plus, parentheses occurs). -/
def patPhone (s : List Char) : Bool :=
  s.any fun c => c.isDigit || pyIsSpace c || c = '-' || c = '+' || c = '(' || c = ')'

/-- The `id_number` shape regex `[A-Z0-9]+` with `IGNORECASE`: a letter or
digit occurs. -/
def patId (s : List Char) : Bool := s.any fun c => asciiAlpha c || c.isDigit

/-- The `percentage` shape regex `\d+%` searched: some digit is
immediately followed by a percent sign. -/
def patPercent : List Char → Bool
  | a :: b :: t => (a.isDigit && b = '%') || patPercent (b :: t)
  | _ => false

/-- `re.sub` removing every character outside word characters, dot, dash
and slash (the cleaning step of `_find_pattern_match`). -/
def patternClean (s : String) : List Char :=
  s.toList.filter fun c =>
    asciiAlpha c || c.isDigit || c = '_' || c = '.' || c = '-' || c = '/'

/-- `_find_pattern_match` (`universal_extraction_service.py` lines
509-542): shape classes in dict order amount, date, phone, id_number,
percentage; the date shape is the same regex as `searchDateNum1`. -/
def find_pattern_match (value : String) (blocks : List TextBlock) (dims : ℚ × ℚ) :
    Option FieldLocation :=
  let pats : List (List Char → Bool) :=
    [patAmount, ProductionService.searchDateNum1, patPhone, patId, patPercent]
  let vc := patternClean value
  pats.findSome? fun pat =>
    if pat value.toList then
      blocks.findSome? fun block =>
        let bt := pyStrip block.text
        let bc := patternClean bt
        if pat bt.toList ∧ (infixOf vc bc ∨ infixOf bc vc) then
          some (mkLoc block.bounding_box dims)
        else none
    else none

/-- The reading-order comparison used by `_find_contextual_match`:
ascending `(y1, x1)` key. -/
def readingOrderLe (b1 b2 : TextBlock) : Bool :=
  decide (b1.bounding_box.y1 < b2.bounding_box.y1 ∨
    (b1.bounding_box.y1 = b2.bounding_box.y1 ∧
      b1.bounding_box.x1 ≤ b2.bounding_box.x1))

/-- `_find_contextual_match` (`universal_extraction_service.py` lines
544-571): scan blocks in reading order; on a label keyword, search the
next (at most four) blocks for a substring match with the value.  Both
`sorted` and `List.mergeSort` are stable, so they agree. -/
def find_contextual_match (value : String) (blocks : List TextBlock) (dims : ℚ × ℚ) :
    Option FieldLocation :=
  let vl := lowerStr value
  let sortedBlocks := blocks.mergeSort readingOrderLe
  (List.range sortedBlocks.length).findSome? fun i =>
    match sortedBlocks[i]? with
    | none => none
    | some block =>
      let btl := lowerStr (pyStrip block.text)
      if ["total", "amount", "date", "number", "name", "address"].any
          (fun kw => infixOf kw.toList btl.toList) then
        (List.range' (i + 1) (min (i + 5) sortedBlocks.length - (i + 1))).findSome?
          fun j =>
            match sortedBlocks[j]? with
            | none => none
            | some nb =>
              let nt := lowerStr (pyStrip nb.text)
              if infixOf vl.toList nt.toList ∨ infixOf nt.toList vl.toList then
                some (mkLoc nb.bounding_box dims)
              else none
      else none

/-- `_validate_location` (`universal_extraction_service.py` lines
742-755); the name and value parameters are unused by the body. -/
def validate_location (loc : FieldLocation) (_field_name _field_value : String) :
    Bool :=
  if ¬ (0 ≤ loc.x ∧ loc.x ≤ 1 ∧ 0 ≤ loc.y ∧ loc.y ≤ 1) then false
  else if loc.width ≠ 0 ∧ loc.height ≠ 0 then
    if loc.width > 0.8 ∨ loc.height > 0.5 then false
    else if loc.width < 0.01 ∨ loc.height < 0.005 then false
    else true
  else true

/-- `_extract_field_keywords` (`universal_extraction_service.py` lines
781-800). -/
def extract_field_keywords (field_name : String) : List String :=
  let parts : List String :=
    (pySplitWs (field_name.toList.map fun c => if c = '_' then ' ' else c)).map
      fun w => ⟨w⟩
  parts.foldl
    (fun acc part =>
      let pl := lowerStr part
      acc ++ [part] ++
        (if pl = "amt" ∨ pl = "amount" then ["total", "sum", "value"]
         else if pl = "num" ∨ pl = "number" ∨ pl = "no" then ["id", "reference", "ref"]
         else if pl = "addr" ∨ pl = "address" then ["location", "place"]
         else []))
    []

/-- Squared centre distance between two blocks (the code compares the
square root against 100 and sorts by the squared distance; comparing the
squares is equivalent). -/
def sqCenterDist (b1 b2 : TextBlock) : ℚ :=
  let cx1 := ((b1.bounding_box.x1 : ℚ) + (b1.bounding_box.x2 : ℚ)) / 2
  let cy1 := ((b1.bounding_box.y1 : ℚ) + (b1.bounding_box.y2 : ℚ)) / 2
  let cx2 := ((b2.bounding_box.x1 : ℚ) + (b2.bounding_box.x2 : ℚ)) / 2
  let cy2 := ((b2.bounding_box.y1 : ℚ) + (b2.bounding_box.y2 : ℚ)) / 2
  (cx2 - cx1) ^ 2 + (cy2 - cy1) ^ 2

/-- `_find_spatially_close_blocks` (`universal_extraction_service.py`
lines 802-828) with the default `max_distance = 100` used at its only call
site: blocks other than the reference within distance 100, sorted by
distance (both sorts stable). -/
def find_spatially_close_blocks (ref : TextBlock) (blocks : List TextBlock) :
    List TextBlock :=
  (blocks.filter fun b => decide (b ≠ ref) && decide (sqCenterDist ref b ≤ 10000)).mergeSort
    fun b1 b2 => decide (sqCenterDist ref b1 ≤ sqCenterDist ref b2)

/-- `_is_value_match` (`universal_extraction_service.py` lines 830-846). -/
def is_value_match (expected block_text : String) : Bool :=
  let ec := lowerStr (pyStrip expected)
  let bc := lowerStr (pyStrip block_text)
  if ec = bc then true
  else if ec.length > 10 ∧ infixOf ec.toList bc.toList then true
  else decide (sequenceMatcherRatio ec bc > 0.85)

/-- `_find_improved_location` (`universal_extraction_service.py` lines
757-779). -/
def find_improved_location (field_name field_value : String)
    (blocks : List TextBlock) (dims : ℚ × ℚ) : Option FieldLocation :=
  (extract_field_keywords field_name).findSome? fun keyword =>
    blocks.findSome? fun block =>
      if infixOf (lowerStr keyword).toList (lowerStr block.text).toList then
        (find_spatially_close_blocks block blocks).findSome? fun nb =>
          if is_value_match field_value nb.text then
            some (mkLoc nb.bounding_box dims)
          else none
      else none

/-- `_refine_bounding_box` (`universal_extraction_service.py` lines
848-878): widen to a minimum legible size proportional to the value
length, then clamp `x`/`y` so the box ends inside the unit square. -/
def refine_bounding_box (loc : FieldLocation) (field_value : String)
    (_blocks : List TextBlock) (_dims : ℚ × ℚ) : FieldLocation :=
  if loc.width ≠ 0 ∧ loc.height ≠ 0 then
    let min_width := max 0.02 ((field_value.length : ℚ) * 0.008)
    let aw := max loc.width min_width
    let ah := max loc.height 0.015
    ⟨min loc.x (1 - aw), min loc.y (1 - ah), aw, ah⟩
  else loc

/-- `_improve_location_accuracy` (`universal_extraction_service.py` lines
722-740): an invalid location is first offered to
`_find_improved_location`; in every other case (including the invalid one
when no improvement is found) the original location is refined and
returned — a hit is never discarded. -/
def improve_location_accuracy (field_name field_value : String)
    (loc : FieldLocation) (ocr : OcrResults) : FieldLocation :=
  let blocks := ocr.text_blocks
  let dims := ocr.image_dimensions
  if ¬ validate_location loc field_name field_value then
    match find_improved_location field_name field_value blocks dims with
    | some improved => improved
    | none => refine_bounding_box loc field_value blocks dims
  else refine_bounding_box loc field_value blocks dims

/-- `_find_field_location` (`universal_extraction_service.py` lines
381-422): the five-strategy cascade; every strategy hit is passed through
`_improve_location_accuracy` (with an empty field name) and returned. -/
def find_field_location (value : String) (ocr : OcrResults) :
    Option FieldLocation :=
  if ocr.text_blocks.isEmpty ∨ value = "" then none
  else
    let vc := pyStrip value
    match find_exact_match vc ocr.text_blocks ocr.image_dimensions with
    | some loc => some (improve_location_accuracy "" vc loc ocr)
    | none =>
      match find_fuzzy_match vc ocr.text_blocks ocr.image_dimensions with
      | some loc => some (improve_location_accuracy "" vc loc ocr)
      | none =>
        match find_partial_match vc ocr.text_blocks ocr.image_dimensions with
        | some loc => some (improve_location_accuracy "" vc loc ocr)
        | none =>
          match find_pattern_match vc ocr.text_blocks ocr.image_dimensions with
          | some loc => some (improve_location_accuracy "" vc loc ocr)
          | none =>
            match find_contextual_match vc ocr.text_blocks ocr.image_dimensions with
            | some loc => some (improve_location_accuracy "" vc loc ocr)
            | none => none

end UniversalService

namespace SpecClaims

/-!
Definitions in this namespace follow the words of the specification claims
(not the source); each is compared against the corresponding source-derived
definition by a theorem below.
-/

/-- Claim C7's document-level confidence: the weighted mean of the
per-field confidences, weight 2 for critical names, weight 1 otherwise,
and 0 for the empty field set. -/
def claimWeightedMean (d : FieldDict) : ℚ :=
  if d = [] then 0
  else
    (d.map fun nf => nf.2.confidence * ProductionService.fieldWeight nf.1).sum /
      (d.map fun nf => ProductionService.fieldWeight nf.1).sum

/-- Claim C5's calibration of one confidence value as the claim words it:
mode factor, then a boost whenever the field name contains one of
`{amount, total, number, date, name}` and the confidence after the mode
factor exceeds 0.8, then the validation penalty, then the clamp. -/
def claimCalibrateField (mode name : String) (c : ℚ) (errs : List String) : ℚ :=
  let c1 := c * (if mode = "high" then 0.95 else if mode = "fast" then 0.9 else 1)
  let c2 := if ProductionService.isCriticalName name ∧ c1 > 0.8 then
      min 0.98 (c1 * 1.05)
    else c1
  let c3 := if errs ≠ [] then c2 * 0.7 else c2
  max 0 (min 1 c3)

/-- The calibrator as claim C5 asserts it behaves. -/
def calibrate_confidence_claim (d : FieldDict) (mode : String) : FieldDict :=
  d.map fun nf =>
    let c := claimCalibrateField mode nf.1 nf.2.confidence nf.2.validation_errors
    (nf.1, { nf.2 with
      confidence := c
      confidence_level := confidenceLevel c })

/-- Step 1 of the amended claim C5: the mode factor. -/
def amendedStepMode (mode : String) (c : ℚ) : ℚ :=
  c * (if mode = "high" then 0.95 else if mode = "fast" then 0.9 else 1)

/-- Step 2 of the amended claim C5: the boost applies only to the exact
names `total_amount`, `invoice_number`, `vendor_name`, and only when the
PRE-scaling confidence exceeds 0.8. -/
def amendedStepBoost (name : String) (preScaling c : ℚ) : ℚ :=
  if name ∈ ["total_amount", "invoice_number", "vendor_name"] ∧ preScaling > 0.8 then
    min 0.98 (c * 1.05)
  else c

/-- Step 3 of the amended claim C5: the validation penalty. -/
def amendedStepPenalty (errs : List String) (c : ℚ) : ℚ :=
  if errs ≠ [] then c * 0.7 else c

/-- Step 4 of the amended claim C5: the clamp to the unit interval. -/
def amendedStepClamp (c : ℚ) : ℚ := max 0 (min 1 c)

/-- The calibrator as amended claim C5 asserts it behaves. -/
def calibrate_confidence_amended (d : FieldDict) (mode : String) : FieldDict :=
  d.map fun nf =>
    let c := amendedStepClamp (amendedStepPenalty nf.2.validation_errors
      (amendedStepBoost nf.1 nf.2.confidence (amendedStepMode mode nf.2.confidence)))
    (nf.1, { nf.2 with
      confidence := c
      confidence_level := confidenceLevel c })

end SpecClaims

/-- A well-formed extracted field, as the parsers build them. -/
def mkSample (v : String) (c : ℚ) : ExtractedField :=
  ⟨v, c, confidenceLevel c, none, v, []⟩

end SAI

open SAI SAI.GeminiService SAI.ProductionService SAI.EnhancedService
open SAI.EnterpriseService SAI.UniversalService SAI.Difflib SAI.SpecClaims

theorem foldl_add_map_sum {α : Type} (g : α → ℚ) (l : List α) (init : ℚ) :
    l.foldl (fun acc x => acc + g x) init = init + (l.map g).sum := by
  induction l generalizing init with
  | nil => simp
  | cons x t ih => simp [ih]; ring

theorem fieldWeight_pos (n : String) : 0 < fieldWeight n := by
  unfold fieldWeight; split <;> norm_num

theorem weights_sum_pos (d : FieldDict) (h : d ≠ []) :
    0 < (d.map fun nf => fieldWeight nf.1).sum := by
  cases d with
  | nil => exact absurd rfl h
  | cons nf t =>
    simp only [List.map_cons, List.sum_cons]
    have h1 := fieldWeight_pos nf.1
    have h2 : 0 ≤ (t.map fun nf => fieldWeight nf.1).sum := by
      apply List.sum_nonneg
      intro x hx
      rw [List.mem_map] at hx
      obtain ⟨nf', _, rfl⟩ := hx
      exact le_of_lt (fieldWeight_pos nf'.1)
    linarith

/-- Claim C7: for every non-empty final field set the document-level
confidence equals the weighted mean of the per-field confidences, with
weight 2 for fields whose name contains one of
`{amount, total, number, date, name}` and weight 1 otherwise, and 0.0 for
the empty set; the spec's worked example
`{total_amount: 0.95, notes: 0.80} ↦ 0.9` holds. -/
theorem C7_weighted_confidence :
    (∀ d : FieldDict, calculate_weighted_confidence d = claimWeightedMean d) ∧
    calculate_weighted_confidence
      [("total_amount", mkSample "$100.00" 0.95), ("notes", mkSample "n" 0.8)] = 0.9 := by
  constructor
  · intro d
    unfold calculate_weighted_confidence claimWeightedMean
    by_cases h : d = []
    · subst h; simp
    · have hni : d.isEmpty = false := by simpa [List.isEmpty_iff] using h
      simp only [hni, if_neg h, Bool.false_eq_true, if_false]
      rw [foldl_add_map_sum, foldl_add_map_sum, zero_add, zero_add]
      rw [if_pos (weights_sum_pos d h)]
  · with_unfolding_all decide

/-- Claim C5 counterexample: the field `tax_amount` (whose name contains
the substring `amount`) with confidence 0.9, no validation errors, mode
`balanced`: the claim's calibration yields 0.945 (boost applied), but the
code leaves it at 0.9 because the boost only applies to the exact names
`total_amount`, `invoice_number`, `vendor_name`. -/
theorem C5_counterexample :
    calibrate_confidence [("tax_amount", mkSample "120.00" 0.9)] .invoice "balanced" ≠
      calibrate_confidence_claim [("tax_amount", mkSample "120.00" 0.9)] "balanced" ∧
    (alistFind (calibrate_confidence [("tax_amount", mkSample "120.00" 0.9)]
        .invoice "balanced") "tax_amount").map ExtractedField.confidence = some 0.9 ∧
    (alistFind (calibrate_confidence_claim [("tax_amount", mkSample "120.00" 0.9)]
        "balanced") "tax_amount").map ExtractedField.confidence = some 0.945 := by
  refine ⟨?_, by with_unfolding_all decide, by with_unfolding_all decide⟩
  with_unfolding_all decide

/-- Amended claim C5: the calibrator multiplies by the mode factor
(high 0.95, balanced 1.0, fast 0.90); boosts by 1.05 capped at 0.98 only
the exact field names `total_amount`, `invoice_number`, `vendor_name`, and
only when the PRE-scaling confidence exceeds 0.8; multiplies by 0.7 when
validation errors are present; clamps to the unit interval and recomputes
the confidence level. -/
theorem C5_amended (d : FieldDict) (dt : DocumentType) (mode : String) :
    calibrate_confidence d dt mode = calibrate_confidence_amended d mode := by
  unfold calibrate_confidence calibrate_confidence_amended
  apply List.map_congr_left
  intro nf _
  simp only [amendedStepMode, amendedStepBoost, amendedStepPenalty, amendedStepClamp,
    List.mem_cons, List.not_mem_nil, or_false, List.isEmpty_iff]
  split_ifs <;> first
    | rfl
    | (simp_all; try ring_nf)

/-- Claim C10: `_process_with_enhanced_pipeline` returns exactly the field
set of the standard pipeline for every input, because its call to
`process_document_enhanced` passes the keyword argument `accuracy_mode`
that the method's signature does not accept, so the call raises and the
handler falls back. -/
theorem C10_enhanced_falls_back :
    (∀ (avail : Bool) (er : FieldDict) (o : ExtractFieldsOutcome) (dt : DocumentType),
       process_with_enhanced_pipeline avail er o dt = process_with_standard_pipeline o dt) ∧
    (∀ er : FieldDict,
       call_process_document_enhanced enhanced_call er =
         .error "got an unexpected keyword argument") := by
  constructor
  · intro avail er o dt
    cases avail <;> rfl
  · intro er; rfl

theorem alistFind_dictInsert {α : Type} (d : List (String × α)) (k k' : String) (v : α) :
    alistFind (dictInsert d k v) k' = if k = k' then some v else alistFind d k' := by
  induction d with
  | nil => simp [dictInsert, alistFind]
  | cons kv t ih =>
    simp only [dictInsert]
    by_cases h : kv.1 = k
    · rw [if_pos h]
      simp only [alistFind]
      by_cases h' : k = k'
      · simp [h']
      · rw [if_neg h', if_neg h']
        have hne : ¬ kv.1 = k' := fun hh => h' (h.symm.trans hh)
        simp [alistFind, hne]
    · rw [if_neg h]
      simp only [alistFind]
      by_cases h' : kv.1 = k'
      · rw [if_pos h', if_pos h']
        have hne : ¬ k = k' := fun hh => h (h'.trans hh.symm)
        rw [if_neg hne]
      · rw [if_neg h', if_neg h']
        exact ih

theorem alistFind_eq_none_of_not_mem {α : Type} (d : List (String × α)) (k : String)
    (h : k ∉ alistKeys d) : alistFind d k = none := by
  induction d with
  | nil => rfl
  | cons kv t ih =>
    simp only [alistKeys, List.map_cons, List.mem_cons, not_or] at h
    have h1 : ¬ kv.1 = k := fun hh => h.1 hh.symm
    simp only [alistFind, if_neg h1]
    exact ih (by simpa [alistKeys] using h.2)

theorem alistKeys_dictInsert {α : Type} (d : List (String × α)) (k : String) (v : α) :
    alistKeys (dictInsert d k v) =
      if k ∈ alistKeys d then alistKeys d else alistKeys d ++ [k] := by
  simp only [alistKeys]
  induction d with
  | nil => simp [dictInsert]
  | cons kv t ih =>
    by_cases h : kv.1 = k
    · simp [dictInsert, h]
    · have hkk : ¬ k = kv.1 := fun hh => h hh.symm
      by_cases hm : k ∈ t.map Prod.fst
      · simp [dictInsert, h, hm, hkk, ih]
      · simp [dictInsert, h, hm, hkk, ih]

theorem nodup_keys_dictInsert {α : Type} (d : List (String × α)) (k : String) (v : α)
    (h : (alistKeys d).Nodup) : (alistKeys (dictInsert d k v)).Nodup := by
  rw [alistKeys_dictInsert]
  by_cases hm : k ∈ alistKeys d
  · rwa [if_pos hm]
  · rw [if_neg hm]
    simp [List.nodup_append, h, hm]

theorem nodup_keys_parse_fold (fs : List (String × SAI.JsonFieldVal)) (acc : FieldDict)
    (h : (alistKeys acc).Nodup) :
    (alistKeys (fs.foldl (fun acc kv =>
      match kv.2 with
      | .scalar _ => acc
      | .obj none _ _ => acc
      | .obj (some val) c? o? =>
        let c := c?.getD 0.5
        dictInsert acc kv.1 ⟨val, c, SAI.confidenceLevel c, none, o?.getD val, []⟩) acc)).Nodup := by
  induction fs generalizing acc with
  | nil => simpa using h
  | cons kv t ih =>
    cases hv : kv.2 with
    | scalar s => simpa [hv] using ih acc h
    | obj v? c? o? =>
      cases v? with
      | none => simpa [hv] using ih acc h
      | some val =>
        simpa [hv] using ih _ (nodup_keys_dictInsert acc kv.1 _ h)

/-- Claim C1 counterexample: the GENERAL pass holds `invoice_number` with
the non-empty value `INV-OLD-999`, the FOCUSED response (requested for the
genuinely missing critical fields) also carries `invoice_number`; the
merged result of `_multi_pass_extraction` takes the FOCUSED value,
overwriting the non-empty GENERAL value, contrary to the
"overwrite only if existing value is empty" policy. -/
theorem C1_counterexample :
    let envC1 : OracleEnv :=
      ⟨.ok (.jsonObj [("invoice_number", .obj (some "INV-OLD-999") (some 0.95) none)]),
       .ok (.jsonObj [("invoice_number", .obj (some "INV-2025-001") (some 0.9) none)]),
       .error "unused", .mockMode⟩
    (alistFind (extract_with_enhanced_prompt envC1 .invoice) "invoice_number").map
        ExtractedField.value = some "INV-OLD-999" ∧
    "INV-OLD-999" ≠ "" ∧
    (alistFind (multi_pass_extraction envC1 .invoice []).1 "invoice_number").map
        ExtractedField.value = some "INV-2025-001" := by
  refine ⟨by with_unfolding_all decide, by decide, by with_unfolding_all decide⟩

/-- Amended claim C1: line 259 merges with Python dict-update semantics —
every field present in FOCUSED takes the FOCUSED value (regardless of
whether GENERAL's value was empty), fields absent from FOCUSED keep
GENERAL's value, and fields absent from GENERAL are added; the FOCUSED
pass is only *requested* for fields absent or empty in GENERAL, but its
response is merged unconditionally.  Parsed responses always have distinct
field names. -/
theorem C1_amended :
    (∀ (g f : FieldDict) (k : String), (alistKeys f).Nodup →
       alistFind (dictMerge g f) k =
         match alistFind f k with
         | some v => some v
         | none => alistFind g k) ∧
    (∀ r : SAI.OracleText, (alistKeys (parse_enhanced_response r)).Nodup) := by
  constructor
  · intro g f k hf
    induction f generalizing g with
    | nil => simp [dictMerge, alistFind]
    | cons kv t ih =>
      simp only [alistKeys, List.map_cons, List.nodup_cons] at hf
      have step : dictMerge g (kv :: t) = dictMerge (dictInsert g kv.1 kv.2) t := rfl
      rw [step, ih _ (hf.2)]
      by_cases h : kv.1 = k
      · have ht : alistFind t k = none := by
          apply alistFind_eq_none_of_not_mem
          rw [← h]
          exact hf.1
        simp [alistFind, h, ht, alistFind_dictInsert]
      · simp [alistFind, h, alistFind_dictInsert]
  · intro r
    cases r with
    | noJson s => simp [parse_enhanced_response, alistKeys]
    | jsonObj fs =>
      simpa [parse_enhanced_response] using
        nodup_keys_parse_fold fs [] (by simp [alistKeys])

/-- Witness for the amended claim C1 at a concrete merge. -/
theorem C1_amended_witness :
    alistFind (dictMerge [("invoice_number", mkSample "INV-OLD-999" 0.95)]
        [("invoice_number", mkSample "INV-2025-001" 0.9)]) "invoice_number" =
      match alistFind [("invoice_number", mkSample "INV-2025-001" 0.9)] "invoice_number" with
      | some v => some v
      | none => alistFind [("invoice_number", mkSample "INV-OLD-999" 0.95)] "invoice_number" :=
  C1_amended.1 _ _ "invoice_number" (by decide)

/-- Claim C6: if `subtotal`, `tax_amount`, `total_amount` all parse after
stripping characters outside digits, dot and minus, then a deviation
within 0.01 leaves the field set unchanged, a larger deviation appends one
validation error to `total_amount` and multiplies its confidence by 0.8;
if any of the three is absent or unparsable the check is skipped and the
field set is unchanged. -/
theorem C6_invoice_math :
    (∀ d : FieldDict,
       (extract_numeric_value (alistFind d "subtotal") = none ∨
        extract_numeric_value (alistFind d "tax_amount") = none ∨
        extract_numeric_value (alistFind d "total_amount") = none) →
       validate_invoice_math d = d) ∧
    (∀ (d : FieldDict) (sv tv totv : ℚ) (f : ExtractedField),
       extract_numeric_value (alistFind d "subtotal") = some sv →
       extract_numeric_value (alistFind d "tax_amount") = some tv →
       extract_numeric_value (alistFind d "total_amount") = some totv →
       alistFind d "total_amount" = some f →
       (|sv + tv - totv| ≤ 0.01 → validate_invoice_math d = d) ∧
       (0.01 < |sv + tv - totv| →
         validate_invoice_math d =
           dictInsert d "total_amount"
             { f with
               validation_errors :=
                 f.validation_errors ++ [invoice_math_error_msg totv (sv + tv)]
               confidence := f.confidence * 0.8 })) := by
  constructor
  · intro d h
    unfold validate_invoice_math
    rcases h with h | h | h
    · rw [h]
    · rw [h]
      rcases extract_numeric_value (alistFind d "subtotal") with _ | sv <;> rfl
    · rw [h]
      rcases extract_numeric_value (alistFind d "subtotal") with _ | sv <;>
        rcases extract_numeric_value (alistFind d "tax_amount") with _ | tv <;> rfl
  · intro d sv tv totv f h1 h2 h3 h4
    unfold validate_invoice_math
    rw [h1, h2, h3]
    constructor
    · intro hle
      simp only [if_neg (not_lt.mpr hle)]
    · intro hgt
      simp only [if_pos hgt, h4]

/-- Claim C2 counterexample: with custom fields requested, mode `balanced`
performs only GENERAL and CUSTOM (no FOCUSED, no multi-pass refinement),
and mode `fast` still performs the CUSTOM pass — contradicting both the
"balanced runs the full chain" and the "fast runs no CUSTOM pass" parts of
the claim. -/
theorem C2_counterexample :
    (extraction_stage "balanced" true ⟨.error "down", .error "down", .error "down", .mockMode⟩
        .invoice ["po_number"]).2 = [.general, .custom] ∧
    (extraction_stage "fast" true ⟨.error "down", .error "down", .error "down", .mockMode⟩
        .invoice ["po_number"]).2 = [.general, .custom] := by
  exact ⟨rfl, rfl⟩

/-- Amended claim C2: only mode `high` (with the multi-pass feature flag
enabled, its default) runs the chain GENERAL, FOCUSED (only when critical
fields are missing or empty after GENERAL), REFINEMENT, CUSTOM (only when
custom field names were requested); modes `fast` and `balanced` — and any
other mode string — run the single-pass GENERAL extraction followed by the
CUSTOM pass whenever custom field names were requested.  The
validation/correction step of the pipeline runs for every mode
afterwards. -/
theorem C2_amended (mode : String) (flag : Bool) (dt : DocumentType)
    (custom : List String) (env : OracleEnv) :
    (PassKind.general ∈ (extraction_stage mode flag env dt custom).2) ∧
    (PassKind.refinement ∈ (extraction_stage mode flag env dt custom).2 ↔
      (mode = "high" ∧ flag = true)) ∧
    (PassKind.custom ∈ (extraction_stage mode flag env dt custom).2 ↔ custom ≠ []) ∧
    (PassKind.focused ∈ (extraction_stage mode flag env dt custom).2 ↔
      (mode = "high" ∧ flag = true ∧
        (extract_missing_fields env dt (extract_with_enhanced_prompt env dt)).2 = true)) := by
  unfold extraction_stage
  by_cases h : mode = "high" ∧ flag = true
  · rw [if_pos h]
    cases hfm : (extract_missing_fields env dt (extract_with_enhanced_prompt env dt)).2 <;>
      cases hc : custom.isEmpty <;>
        simp_all [multi_pass_extraction, List.isEmpty_iff]
  · rw [if_neg h]
    cases hc : custom.isEmpty <;>
      simp_all [single_pass_extraction, List.isEmpty_iff]

theorem pyFloatMod_nonneg (a b : ℚ) (hb : 0 < b) : 0 ≤ pyFloatMod a b := by
  unfold pyFloatMod
  have h : (⌊a / b⌋ : ℚ) ≤ a / b := Int.floor_le (a / b)
  have h2 : b * (⌊a / b⌋ : ℚ) ≤ b * (a / b) := mul_le_mul_of_nonneg_left h hb.le
  have h3 : b * (a / b) = a := by field_simp
  linarith

/-- Claim C8 (code bug): `_add_spatial_coordinates` fabricates a location
for every field; for any field set with at least two fields, the second
field receives `x = 0.9` and a hash-derived width of at least 0.3, so its
box always extends past the right page edge (`x + width ≥ 1.2 > 1`) —
whatever the (salted) hash function is. -/
theorem C8_fabricated_out_of_bounds (hash : String → ℤ) (f1 f2 : ExtractedField) :
    ∃ w : ℚ,
      ((alistFind (add_spatial_coordinates hash [("subtotal", f1), ("notes", f2)])
          "notes").bind ExtractedField.location) = some ⟨0.9, 0.5, w, 0.05⟩ ∧
      0.3 ≤ w ∧ 1 < 0.9 + w := by
  refine ⟨0.3 + pyFloatMod (0.2 * (hash "notes" : ℤ)) 3 / 3, ?_, ?_, ?_⟩
  · simp only [add_spatial_coordinates, List.enum, List.enumFrom, List.map_cons,
      List.map_nil, List.length_cons, List.length_nil, alistFind]
    norm_num
    rw [if_neg (by decide : ¬ ("subtotal" : String) = "notes")]
    rfl
  · have := pyFloatMod_nonneg (0.2 * (hash "notes" : ℤ)) 3 (by norm_num)
    have h3 : (0 : ℚ) ≤ pyFloatMod (0.2 * (hash "notes" : ℤ)) 3 / 3 := by positivity
    linarith
  · have := pyFloatMod_nonneg (0.2 * (hash "notes" : ℤ)) 3 (by norm_num)
    have h3 : (0 : ℚ) ≤ pyFloatMod (0.2 * (hash "notes" : ℤ)) 3 / 3 := by positivity
    linarith

/-- Claim C4 counterexample: when the Oracle call behind the GENERAL pass
fails, `_get_gemini_response_simple` substitutes the built-in mock
response, so the pass contributes four mock fields — not an empty
candidate set. -/
theorem C4_counterexample :
    extract_with_enhanced_prompt
        ⟨.error "connection reset by peer", .error "x", .error "x", .mockMode⟩ .invoice ≠ [] ∧
    (alistFind (extract_with_enhanced_prompt
        ⟨.error "connection reset by peer", .error "x", .error "x", .mockMode⟩ .invoice)
        "vendor_name").map ExtractedField.value = some "ACME Corporation" := by
  refine ⟨by with_unfolding_all decide, by with_unfolding_all decide⟩

/-- Amended claim C4: a malformed (non-JSON) Oracle response contributes an
empty candidate set; an Oracle *call failure* is caught and replaced by the
deterministic mock response (a non-empty contribution for extraction
prompts); in both cases the session completes — the run reaches the
COMPLETED terminal state whenever the image decodes wherever the pipeline
opens it, and the FAILED state otherwise. -/
theorem C4_amended :
    (∀ s : String, parse_enhanced_response (.noJson s) = []) ∧
    (∀ e : String, get_gemini_response_simple .extraction (.error e) =
        get_mock_simple_response .extraction) ∧
    (∀ (hash : String → ℤ) (mode : String) (flag : Bool) (dt : DocumentType)
        (custom : List String) (env : OracleEnv),
       (process_document_production true hash mode flag dt custom env).status = .completed ∧
       (process_document_production false hash mode flag dt custom env).status = .failed) := by
  exact ⟨fun s => rfl, fun e => rfl, fun hash mode flag dt custom env => ⟨rfl, rfl⟩⟩

/-- Claim C9 counterexample: the already-valid, error-free amount field
`total_amount = "100.00"` with confidence 0.8 becomes 0.85 after one
validation run; running `validate_extraction` again on that already-valid,
error-free field changes it again (0.85 to 0.9), so validation is not
idempotent. -/
theorem C9_counterexample :
    validate_extraction [("total_amount", ⟨"100.00", 0.8, .medium, none, "100.00", []⟩)]
        .invoice =
      [("total_amount", ⟨"100.00", 0.85, .medium, none, "100.00", []⟩)] ∧
    validate_extraction
        [("total_amount", ⟨"100.00", 0.85, .medium, none, "100.00", []⟩)] .invoice ≠
      [("total_amount", ⟨"100.00", 0.85, .medium, none, "100.00", []⟩)] := by
  refine ⟨by with_unfolding_all decide, by with_unfolding_all decide⟩

/-- Amended claim C9: the production service's
`_validate_and_correct_fields` is idempotent on already-valid fields
(empty `validation_errors`, value passing its rules, consistent
confidence level): rerunning it leaves every such field unchanged.  The
Gemini service's `validate_extraction`, however, is not idempotent: each
run on a valid amount-category field leaves the value and (empty) error
list unchanged but adds +0.05 to the confidence, capped at 1.0 — an
already-validated field is only a fixed point once its confidence has
reached 1.0. -/
theorem C9_amended :
    (∀ (dt : DocumentType) (d : FieldDict),
       (∀ nf ∈ d, validate_field_content nf.1 nf.2.value dt = [] ∧
          nf.2.validation_errors = [] ∧
          nf.2.confidence_level = SAI.confidenceLevel nf.2.confidence) →
       validate_and_correct_fields d dt = d) ∧
    (∀ (dt : DocumentType) (n : String) (f : ExtractedField) (q : ℚ),
       strContains (lowerStr n) "date" = false →
       (["amount", "total", "price"].any fun kw => strContains (lowerStr n) kw) = true →
       f.value ≠ "" →
       (firstNumRun (f.value.toList.filter fun c => c ≠ ',' && c ≠ '$' && c ≠ '€')).bind
           (fun run => parsePyFloat ⟨run⟩) = some q →
       0 ≤ q →
       validate_extraction [(n, f)] dt =
         [(n, { f with
            confidence := min (f.confidence + 0.05) 1
            confidence_level := SAI.confidenceLevel (min (f.confidence + 0.05) 1) })]) := by
  constructor
  · intro dt d h
    induction d with
    | nil => rfl
    | cons nf t ih =>
      have ht := ih fun x hx => h x (List.mem_cons_of_mem nf hx)
      obtain ⟨h1, h2, h3⟩ := h nf (List.mem_cons_self nf t)
      obtain ⟨k, fl⟩ := nf
      obtain ⟨v, c, lvl, loc, ot, errs⟩ := fl
      dsimp only at h1 h2 h3
      subst h2
      subst h3
      simp only [validate_and_correct_fields, List.map_cons] at ht ⊢
      rw [ht]
      congr 1
      simp [h1, auto_correct_field]
  · intro dt n f q hdate hamount hval hparse hq
    obtain ⟨run, hrun, hpf⟩ := Option.bind_eq_some.mp hparse
    simp only [validate_extraction, List.map_cons, List.map_nil, hdate, hamount,
      Bool.false_eq_true, if_false, if_true, List.cons.injEq, and_true, Prod.mk.injEq,
      true_and]
    unfold validate_amount_field
    rw [if_neg hval]
    simp only [hrun, hpf]
    rw [if_pos hq]

/-- Witness for the amended claim C9 at concrete fields. -/
theorem C9_amended_witness :
    validate_and_correct_fields [("notes", ⟨"hello", 0.8, .medium, none, "hello", []⟩)]
        .invoice = [("notes", ⟨"hello", 0.8, .medium, none, "hello", []⟩)] ∧
    validate_extraction [("total_amount", ⟨"100.00", 0.8, .medium, none, "100.00", []⟩)]
        .invoice =
      [("total_amount",
        { (⟨"100.00", 0.8, .medium, none, "100.00", []⟩ : ExtractedField) with
          confidence := min ((0.8 : ℚ) + 0.05) 1
          confidence_level := SAI.confidenceLevel (min ((0.8 : ℚ) + 0.05) 1) })] :=
  ⟨C9_amended.1 .invoice _ (by with_unfolding_all decide),
   C9_amended.2 .invoice "total_amount" _ 100 (by decide) (by decide) (by decide)
     (by with_unfolding_all decide) (by norm_num)⟩

/-- Claim C3 counterexample: a single OCR block with text `INV-001` at
pixel box (0,0)-(900,600) on a 1000×1000 page; the exact strategy hits,
the normalised box (width 0.9) violates the plausibility bound
width ≤ 0.8, yet the resolver returns it instead of falling through to the
next strategy or ending absent: the cascade ends at the first hit. -/
theorem C3_counterexample :
    find_field_location "INV-001"
        ⟨[⟨"INV-001", 0.9, ⟨0, 0, 900, 600⟩, 12, 0⟩], (1000, 1000), "INV-001", 0.9⟩ =
      some ⟨0, 0, 0.9, 0.6⟩ ∧
    validate_location ⟨0, 0, 0.9, 0.6⟩ "" "INV-001" = false := by
  refine ⟨by with_unfolding_all decide, by with_unfolding_all decide⟩

/-- Amended claim C3: a hit of any strategy — plausible or not — ends the
cascade after the accuracy-improvement step (`_improve_location_accuracy`
may replace an implausible box by a label-context location, otherwise it
widens and clamps the original box, but it never discards the hit); the
result is absent exactly when the value is empty, the block list is empty,
or no strategy produces a hit at all. -/
theorem C3_amended :
    (∀ (v : String) (ocr : OcrResults),
       find_field_location v ocr = none ↔
         (ocr.text_blocks.isEmpty = true ∨ v = "" ∨
           (find_exact_match (pyStrip v) ocr.text_blocks ocr.image_dimensions = none ∧
            find_fuzzy_match (pyStrip v) ocr.text_blocks ocr.image_dimensions = none ∧
            find_partial_match (pyStrip v) ocr.text_blocks ocr.image_dimensions = none ∧
            find_pattern_match (pyStrip v) ocr.text_blocks ocr.image_dimensions = none ∧
            find_contextual_match (pyStrip v) ocr.text_blocks ocr.image_dimensions = none))) ∧
    (∀ (v : String) (ocr : OcrResults) (loc : FieldLocation),
       ocr.text_blocks.isEmpty = false → v ≠ "" →
       find_exact_match (pyStrip v) ocr.text_blocks ocr.image_dimensions = some loc →
       find_field_location v ocr = some (improve_location_accuracy "" (pyStrip v) loc ocr)) := by
  constructor
  · intro v ocr
    unfold find_field_location
    by_cases h1 : ocr.text_blocks.isEmpty = true ∨ v = ""
    · rw [if_pos h1]
      simp only [true_iff]
      tauto
    · rw [if_neg h1]
      rw [not_or] at h1
      rcases he : find_exact_match (pyStrip v) ocr.text_blocks ocr.image_dimensions with _ | l1
      · rcases hz : find_fuzzy_match (pyStrip v) ocr.text_blocks ocr.image_dimensions with _ | l2
        · rcases hp : find_partial_match (pyStrip v) ocr.text_blocks ocr.image_dimensions with _ | l3
          · rcases hpat : find_pattern_match (pyStrip v) ocr.text_blocks ocr.image_dimensions with _ | l4
            · rcases hctx : find_contextual_match (pyStrip v) ocr.text_blocks ocr.image_dimensions with _ | l5
              · simp [h1.1, h1.2, he, hz, hp, hpat, hctx]
              · simp [h1.1, h1.2, he, hz, hp, hpat, hctx]
            · simp [h1.1, h1.2, he, hz, hp, hpat]
          · simp [h1.1, h1.2, he, hz, hp]
        · simp [h1.1, h1.2, he, hz]
      · simp [h1.1, h1.2, he]
  · intro v ocr loc hne hv he
    unfold find_field_location
    rw [if_neg (by simp [hne, hv])]
    simp only [he]

/-- Witness for the amended claim C3 at a concrete exact-match hit. -/
theorem C3_amended_witness :
    find_field_location "TOTAL 42"
        ⟨[⟨"TOTAL 42", 0.8, ⟨10, 20, 110, 40⟩, 12, 1⟩], (200, 100), "TOTAL 42", 0.8⟩ =
      some (improve_location_accuracy "" (pyStrip "TOTAL 42")
        (mkLoc ⟨10, 20, 110, 40⟩ (200, 100))
        ⟨[⟨"TOTAL 42", 0.8, ⟨10, 20, 110, 40⟩, 12, 1⟩], (200, 100), "TOTAL 42", 0.8⟩) :=
  C3_amended.2 "TOTAL 42" _ _ (by decide) (by decide) (by with_unfolding_all decide)

/-- Witness for claim C6 at the spec's worked example: the consistent
triple (subtotal 1,134.56 + tax 100.00 = total 1,234.56) is left
unchanged; replacing the total by 1,300.00 appends the error and scales
the confidence by 0.8. -/
theorem C6_invoice_math_witness :
    validate_invoice_math
        [("subtotal", mkSample "1,134.56" 0.9), ("tax_amount", mkSample "100.00" 0.88),
         ("total_amount", mkSample "1,234.56" 0.95)] =
      [("subtotal", mkSample "1,134.56" 0.9), ("tax_amount", mkSample "100.00" 0.88),
       ("total_amount", mkSample "1,234.56" 0.95)] ∧
    validate_invoice_math
        [("subtotal", mkSample "1,134.56" 0.9), ("tax_amount", mkSample "100.00" 0.88),
         ("total_amount", mkSample "1,300.00" 0.95)] =
      dictInsert
        [("subtotal", mkSample "1,134.56" 0.9), ("tax_amount", mkSample "100.00" 0.88),
         ("total_amount", mkSample "1,300.00" 0.95)] "total_amount"
        { mkSample "1,300.00" 0.95 with
          validation_errors :=
            (mkSample "1,300.00" 0.95).validation_errors ++
              [invoice_math_error_msg 1300 (1134.56 + 100)]
          confidence := (mkSample "1,300.00" 0.95).confidence * 0.8 } :=
  ⟨(C6_invoice_math.2 _ 1134.56 100 1234.56 (mkSample "1,234.56" 0.95)
      (by with_unfolding_all rfl) (by with_unfolding_all rfl)
      (by with_unfolding_all rfl) (by with_unfolding_all rfl)).1
      (by norm_num),
   (C6_invoice_math.2 _ 1134.56 100 1300 (mkSample "1,300.00" 0.95)
      (by with_unfolding_all rfl) (by with_unfolding_all rfl)
      (by with_unfolding_all rfl) (by with_unfolding_all rfl)).2
      (by
        have h : (1134.56 : ℚ) + 100 - 1300 = -65.44 := by norm_num
        rw [h, abs_neg, abs_of_nonneg (by norm_num : (0:ℚ) ≤ 65.44)]
        norm_num)⟩
